import Mathlib

/-!
Verification development for the HELPISS real-estate dashboard
(`src/main.py`).  The definitions below are a shallow embedding of the
data-access and reconciliation layer: spreadsheet cells, rows and frames,
the schema normalizer, the fetch/registry layer, the client and user
handlers, and the authentication function.  External effects (pandas
reads, bcrypt, the filesystem) are modelled as explicit parameters or
`Except` results.
-/

set_option autoImplicit false

namespace Helpiss

/-- A spreadsheet / JSON cell value: a string, a number, or a missing
value (pandas `NaN`).  Numbers are modelled as rationals. -/
inductive Val where
  | vStr (s : String)
  | vNum (q : ℚ)
  | vNan
deriving DecidableEq, Repr

/-- Python `str(value)` as applied to a cell: strings are themselves,
`NaN` renders as `"nan"`; numeric rendering is abstracted by `toString`. -/
def pyValStr : Val → String
  | .vStr s => s
  | .vNum q => toString q
  | .vNan => "nan"

/-- Python truthiness of `row.get(key)`: `None` (missing key), the empty
string and `0` are falsy; `NaN` is truthy. -/
def pyFalsy : Option Val → Bool
  | none => true
  | some (.vStr s) => s = ""
  | some (.vNum q) => q = 0
  | some .vNan => false

/-- Whitespace characters stripped by Python `str.strip()`. -/
def isPyWs (c : Char) : Bool :=
  c = ' ' || c = '\t' || c = '\n' || c = '\r' || c = '\x0b' || c = '\x0c'

/-- Python `str.strip()`. -/
def pyStrip (s : String) : String :=
  String.mk (((s.data.dropWhile isPyWs).reverse.dropWhile isPyWs).reverse)

/-- `headMatches pat cs` is true when `pat` occurs at the front of `cs`. -/
def headMatches : List Char → List Char → Bool
  | [], _ => true
  | _ :: _, [] => false
  | p :: ps, c :: cs => p = c && headMatches ps cs

/-- `subIn pat cs` is true when `pat` occurs inside `cs` (substring). -/
def subIn (pat : List Char) : List Char → Bool
  | [] => pat.isEmpty
  | c :: cs => headMatches pat (c :: cs) || subIn pat cs

/-- ASCII lowercasing of one character (Python `str.lower()` on the
ASCII range, which is all the case-insensitive matching here uses). -/
def charLower (c : Char) : Char :=
  if 65 ≤ c.toNat && c.toNat ≤ 90 then Char.ofNat (c.toNat + 32) else c

/-- Python `str.lower()` (ASCII model). -/
def pyLower (s : String) : String :=
  String.mk (s.data.map charLower)

/-- Case-insensitive substring test, modelling
`pandas.Series.str.contains(needle, case=False)` for needles without
regex metacharacters. -/
def containsCI (hay needle : String) : Bool :=
  subIn (needle.data.map charLower) (hay.data.map charLower)

/-- Association-list lookup (Python `dict[key]` / `key in dict`). -/
def lookup {α : Type} (m : List (String × α)) (k : String) : Option α :=
  (m.find? (fun p => p.1 == k)).map (fun p => p.2)

/-- Insert-or-replace (Python `dict[key] = value`). -/
def dictSet {α : Type} (m : List (String × α)) (k : String) (v : α) :
    List (String × α) :=
  if (m.find? (fun p => p.1 == k)).isSome then
    m.map (fun p => if p.1 == k then (k, v) else p)
  else
    m ++ [(k, v)]

/-- Python `del dict[key]` guarded by `key in dict` (removal is a no-op
when the key is absent, as in `ManagerControlPanel._remove_user`). -/
def dictDel {α : Type} (m : List (String × α)) (k : String) :
    List (String × α) :=
  m.filter (fun p => p.1 != k)

/-! ## Rows and frames -/

/-- One row of a tabular snapshot: column name / cell value pairs. -/
abbrev Row := List (String × Val)

/-- `row.get(key)` / `row[key]`: the first cell stored under `k`. -/
def rowGet (r : Row) (k : String) : Option Val :=
  (r.find? (fun p => p.1 == k)).map (fun p => p.2)

/-- `row.get(key, default)`. -/
def rowGetD (r : Row) (k : String) (d : Val) : Val :=
  (rowGet r k).getD d

/-- A tabular snapshot (pandas DataFrame): column names plus rows. -/
structure Frame where
  cols : List String
  rows : List Row
deriving DecidableEq, Repr

/-- The empty DataFrame `pd.DataFrame()`. -/
def emptyFrame : Frame := { cols := [], rows := [] }

/-- Rename one key of a row (`df.rename` applied to a record). -/
def renameKey (old nw : String) (r : Row) : Row :=
  r.map (fun p => if p.1 == old then (nw, p.2) else p)

/-- `df.rename(columns=\x7bold: nw\x7d)`: renames the column header and the
corresponding key of every row. -/
def renameCol (old nw : String) (f : Frame) : Frame :=
  { cols := f.cols.map (fun c => if c == old then nw else c),
    rows := f.rows.map (renameKey old nw) }

/-- `df.columns = df.columns.str.strip()`: strips whitespace from every
column header (and hence from every row key). -/
def stripCols (f : Frame) : Frame :=
  { cols := f.cols.map pyStrip,
    rows := f.rows.map (fun r => r.map (fun p => (pyStrip p.1, p.2))) }

/-! ## Schema normalizer (`column_mapping` loops of the sheet handlers) -/

/-- A per-dataset alias table: canonical field name with its ordered list
of acceptable source-column aliases. -/
abbrev AliasTable := List (String × List String)

/-- The `column_mapping` table of `PropertiesSheetHandler.load_properties`
(main.py:228-240), verbatim. -/
def propertiesMapping : AliasTable :=
  [("unit_id", ["unit_id", "id", "property_id"]),
   ("unit_type", ["unit_type", "property_type", "type"]),
   ("listing_type", ["listing_type", "sale_rent", "transaction_type"]),
   ("area", ["area", "region", "location", "city"]),
   ("address", ["address", "main_address", "street_address"]),
   ("price_total", ["price_total", "price", "total_price", "value"]),
   ("area_sqm", ["area_sqm", "area_m2", "size", "square_meters"]),
   ("rooms", ["rooms", "bedrooms", "number_of_rooms"]),
   ("bathrooms", ["bathrooms", "washrooms", "number_of_bathrooms"]),
   ("floor_number", ["floor_number", "floor", "level"]),
   ("status", ["status", "unit_status", "availability"])]

/-- The `column_mapping` table of `ClientsSheetHandler.load_clients`
(main.py:275-283), verbatim. -/
def clientsMapping : AliasTable :=
  [("client_id", ["client_id", "id"]),
   ("name", ["name", "client_name", "full_name"]),
   ("phone", ["phone", "phone_number", "mobile"]),
   ("assigned_to", ["assigned_to", "agent", "sales_agent"]),
   ("status", ["status", "client_status"]),
   ("source", ["source", "lead_source"]),
   ("budget", ["budget", "budget_range", "price_range"])]

/-- The inner alias loop of the handlers (main.py:243-246 / 285-288):
`for possible in possible_names: if possible in df.columns and
standard_col not in df.columns: df.rename(...)`. -/
def applyFieldStep (f : Frame) (canon : String) (aliases : List String) : Frame :=
  aliases.foldl
    (fun g a => if g.cols.contains a && !(g.cols.contains canon) then renameCol a canon g else g)
    f

/-- The outer loop over `column_mapping.items()` (insertion order). -/
def applyMapping (t : AliasTable) (f : Frame) : Frame :=
  t.foldl (fun g fld => applyFieldStep g fld.1 fld.2) f

/-- Modelled from the spec: "for each canonical field scans that field's
ordered alias list and maps the first alias present in the columns
(case-sensitive exact match) onto the canonical field name". -/
def specFieldStep (f : Frame) (canon : String) (aliases : List String) : Frame :=
  match aliases.find? (fun a => f.cols.contains a) with
  | none => f
  | some a => renameCol a canon f

/-- Modelled from the spec: the whole alias table applied field by field. -/
def specApplyMapping (t : AliasTable) (f : Frame) : Frame :=
  t.foldl (fun g fld => specFieldStep g fld.1 fld.2) f

/-! ## Numeric coercion and aggregates -/

/-- `pd.to_numeric(v, errors="coerce")` on one cell, with the parsing of
numeric strings abstracted by `parse`: parseable strings become numbers,
unparseable strings and missing values become NaN, never an error. -/
def toNumeric (parse : String → Option ℚ) : Val → Val
  | .vStr s =>
    match parse s with
    | some q => .vNum q
    | none => .vNan
  | .vNum q => .vNum q
  | .vNan => .vNan

/-- The `numeric_cols` list of `PropertiesSheetHandler.load_properties`
(main.py:249). -/
def numericPropsCols : List String :=
  ["price_total", "area_sqm", "rooms", "bathrooms", "floor_number"]

/-- The coercion loop (main.py:250-252): for each declared-numeric column
present in the frame, apply `pd.to_numeric(..., errors="coerce")`. -/
def coerceNumericCols (parse : String → Option ℚ) (numCols : List String) (f : Frame) : Frame :=
  { cols := f.cols,
    rows := f.rows.map (fun r => r.map (fun p =>
      if numCols.contains p.1 && f.cols.contains p.1 then (p.1, toNumeric parse p.2) else p)) }

/-- The numeric entries of a column (NaN and non-numeric cells dropped). -/
def numsOf (vs : List Val) : List ℚ :=
  vs.filterMap (fun v => match v with | .vNum q => some q | _ => none)

/-- `Series.sum()`: NaN entries are skipped (empty sum is 0). -/
def pdSum (vs : List Val) : ℚ := (numsOf vs).sum

/-- `Series.mean()`: NaN entries are excluded from both the sum and the
count; an all-NaN column yields NaN (`none`). -/
def pdMean (vs : List Val) : Option ℚ :=
  let ns := numsOf vs
  if ns.isEmpty then none else some (ns.sum / (ns.length : ℚ))

/-- The values of one column, row by row (missing keys are NaN). -/
def colValues (f : Frame) (c : String) : List Val :=
  f.rows.map (fun r => rowGetD r c .vNan)

/-- Row count of a frame (`len(df)`, the count aggregate). -/
def countRows (f : Frame) : Nat := f.rows.length

/-! ## Source registry and remote fetch (`MultiSheetManager`) -/

/-- One entry of the sheet registry (`multi_sheets_config.json`); a
missing/empty `url` is modelled as `""`. -/
structure SheetCfg where
  stype : String
  url : String
deriving DecidableEq, Repr

/-- `MultiSheetManager.get_sheet_by_type`: first entry with the given
type (main.py:120-126). -/
def getSheetByType (registry : List SheetCfg) (t : String) : Option SheetCfg :=
  registry.find? (fun s => s.stype == t)

/-- The `(None, message)` failure outcomes of
`MultiSheetManager.load_sheet_by_type`, one constructor per message. -/
inductive FetchErr where
  | notConfigured
  | noUrl
  | invalidLocation
  | readFailed (msg : String)
  | emptySheet
deriving DecidableEq, Repr

/-- Characters matched by the regex class `[a-zA-Z0-9-_]`. -/
def isIdentChar (c : Char) : Bool :=
  c.isAlphanum || c = '-' || c = '_'

/-- `re.search` for a pattern `<lit>([a-zA-Z0-9-_]+)`: scan left to
right for an occurrence of the literal followed by at least one
identifier character, and capture the maximal run. -/
def extractTok (lit : List Char) : List Char → Option (List Char)
  | [] => none
  | c :: cs =>
    if headMatches lit (c :: cs) && !(((c :: cs).drop lit.length).takeWhile isIdentChar).isEmpty then
      some (((c :: cs).drop lit.length).takeWhile isIdentChar)
    else
      extractTok lit cs

/-- The two accepted URI shapes (main.py:141), in order. -/
def litSpread : List Char := "/spreadsheets/d/".data

/-- The second accepted URI shape. -/
def litIdEq : List Char := "id=".data

/-- The sheet-id extraction loop of `load_sheet_by_type`
(main.py:141-147): first pattern that matches wins. -/
def parseSheetId (url : String) : Option String :=
  match extractTok litSpread url.data with
  | some t => some (String.mk t)
  | none => (extractTok litIdEq url.data).map String.mk

/-- Modelled from the spec: "any string containing `/spreadsheets/d/<ID>`
or `id=<ID>`; `<ID>` is an opaque alphanumeric/hyphen/underscore token" --
the URI contains the literal followed by a nonempty identifier token. -/
def specShapePresent (lit : List Char) (s : String) : Prop :=
  ∃ pre tok post, s.data = pre ++ lit ++ tok ++ post ∧ tok ≠ [] ∧ tok.all isIdentChar = true

/-- The export URL built from the extracted sheet id (main.py:153). -/
def exportUrlOf (sheetId : String) : String :=
  "https://docs.google.com/spreadsheets/d/" ++ sheetId ++ "/export?format=xlsx"

/-- `MultiSheetManager.load_sheet_by_type` (main.py:128-162).  The
remote read `pd.read_excel` is the oracle `fetch`; an exception inside
the `try` block is `fetch` returning `.error` and becomes the
`"Error: ..."` outcome (`readFailed`). -/
def load_sheet_by_type (registry : List SheetCfg)
    (fetch : String → Except String Frame) (t : String) : Except FetchErr Frame :=
  match getSheetByType registry t with
  | none => .error .notConfigured
  | some cfg =>
    if cfg.url = "" then .error .noUrl
    else
      match parseSheetId cfg.url with
      | none => .error .invalidLocation
      | some sheetId =>
        match fetch (exportUrlOf sheetId) with
        | .error msg => .error (.readFailed msg)
        | .ok df => if df.rows.isEmpty then .error .emptySheet else .ok df

/-! ## Dataset handlers -/

/-- `PropertiesSheetHandler.load_properties` (main.py:216-254): on any
fetch failure an empty frame; otherwise strip headers, apply the alias
table, coerce the declared-numeric columns. -/
def load_properties (registry : List SheetCfg) (fetch : String → Except String Frame)
    (parse : String → Option ℚ) : Frame :=
  match load_sheet_by_type registry fetch "properties" with
  | .error _ => emptyFrame
  | .ok df => coerceNumericCols parse numericPropsCols (applyMapping propertiesMapping (stripCols df))

/-- `ClientsSheetHandler.load_clients` (main.py:263-295): on fetch
failure `[]`; otherwise strip headers, apply the alias table, and when
`username` is truthy, the role is `sales` and an `assigned_to` column
exists, keep only rows whose stringified `assigned_to` contains
`username` case-insensitively; finally `df.to_dict("records")`. -/
def handlerLoadClients (registry : List SheetCfg) (fetch : String → Except String Frame)
    (username role : String) : List Row :=
  match load_sheet_by_type registry fetch "clients" with
  | .error _ => []
  | .ok df =>
    let g := applyMapping clientsMapping (stripCols df)
    let g2 :=
      if username ≠ "" && role == "sales" then
        if g.cols.contains "assigned_to" then
          { cols := g.cols,
            rows := g.rows.filter (fun r => containsCI (pyValStr (rowGetD r "assigned_to" .vNan)) username) }
        else g
      else g
    g2.rows

/-- `TransactionsHandler.load_transactions` (main.py:373-391): empty
frame on any fetch failure, stripped headers otherwise. -/
def load_transactions (registry : List SheetCfg) (fetch : String → Except String Frame) : Frame :=
  match load_sheet_by_type registry fetch "transactions" with
  | .error _ => emptyFrame
  | .ok df => stripCols df

/-! ## Client database (`ClientDatabase`) -/

/-- The dictionary returned by `ClientDatabase.load_clients`. -/
structure ClientsData where
  clients : List Row
  next_id : Nat
  sources : List String
deriving DecidableEq, Repr

/-- The sources list of `ClientDatabase.load_clients`. -/
def defaultSources : List String :=
  ["Website", "Referral", "Walk-in", "Social Media", "Advertisement", "Direct"]

/-- `ClientDatabase._load_local_backup` (main.py:564-584).  `backup` is
the parsed `clients` list of the backup file; `none` models a missing or
unreadable file (the `except` path).  Note the sales filter here is
exact equality `c.get("assigned_to") == username`. -/
def loadLocalBackup (backup : Option (List Row)) (username user_role : String) : ClientsData :=
  match backup with
  | none => { clients := [], next_id := 1, sources := [] }
  | some cl =>
    let cl2 :=
      if user_role == "sales" then cl.filter (fun c => rowGet c "assigned_to" == some (.vStr username))
      else cl
    { clients := cl2, next_id := cl2.length + 1, sources := defaultSources }

/-- `ClientDatabase.load_clients` (main.py:542-562): the sheet-handler
result when non-empty (the best-effort backup write is a side effect and
not modelled), else the local backup. -/
def cdLoadClients (registry : List SheetCfg) (fetch : String → Except String Frame)
    (backup : Option (List Row)) (username user_role : String) : ClientsData :=
  let clients := handlerLoadClients registry fetch username user_role
  if clients.isEmpty then loadLocalBackup backup username user_role
  else { clients := clients, next_id := clients.length + 1, sources := defaultSources }

/-- `ClientDatabase.add_client` (main.py:586-619): loads the unfiltered
data as `("system", "owner")`, defaults `assigned_to` for sales actors,
stamps id, timestamps and conversion stage, and appends.  Returns the
assigned id, the stored record and the new clients list.  `role` is
`st.session_state.user["role"]` and `now` the current timestamp. -/
def cdAddClient (registry : List SheetCfg) (fetch : String → Except String Frame)
    (backup : Option (List Row)) (client_data : Row) (username role now : String) :
    Nat × Row × List Row :=
  let existing := cdLoadClients registry fetch backup "system" "owner"
  let cd1 :=
    if pyFalsy (rowGet client_data "assigned_to") && role == "sales" then
      dictSet client_data "assigned_to" (.vStr username)
    else client_data
  let cid := existing.next_id
  let cd2 :=
    dictSet (dictSet (dictSet (dictSet cd1 "client_id" (.vNum (cid : ℚ)))
      "created_at" (.vStr now)) "last_contact" (.vStr now)) "conversion_stage" (.vStr "Lead")
  (cid, cd2, existing.clients ++ [cd2])

/-! ## Property metrics (`PropertyDatabase.get_inventory_metrics`) -/

/-- The metrics dictionary; `avg_price = none` models pandas NaN. -/
structure InvMetrics where
  total_units : Nat
  available_units : Nat
  sold_units : Nat
  total_value : ℚ
  avg_price : Option ℚ
deriving DecidableEq, Repr

/-- The first candidate column present in the frame (the status / price
column search loops of main.py:725-730 and 739-744). -/
def firstPresentCol (cands : List String) (f : Frame) : Option String :=
  cands.find? (fun c => f.cols.contains c)

/-- `PropertyDatabase.get_inventory_metrics` (main.py:708-759) applied
to an already-loaded frame. -/
def get_inventory_metrics (f : Frame) : InvMetrics :=
  if f.rows.isEmpty then
    { total_units := 0, available_units := 0, sold_units := 0, total_value := 0, avg_price := some 0 }
  else
    let total := f.rows.length
    let statusCol := firstPresentCol ["status", "unit_status", "availability"] f
    let avail :=
      match statusCol with
      | some c => (f.rows.filter (fun r => containsCI (pyValStr (rowGetD r c .vNan)) "available")).length
      | none => total
    let sold :=
      match statusCol with
      | some c => (f.rows.filter (fun r =>
          containsCI (pyValStr (rowGetD r c .vNan)) "sold" ||
          containsCI (pyValStr (rowGetD r c .vNan)) "rented")).length
      | none => 0
    match firstPresentCol ["price_total", "price", "value"] f with
    | some c =>
      { total_units := total, available_units := avail, sold_units := sold,
        total_value := pdSum (colValues f c), avg_price := pdMean (colValues f c) }
    | none =>
      { total_units := total, available_units := avail, sold_units := sold,
        total_value := 0, avg_price := some 0 }

/-! ## Users sheet handler (`UsersSheetHandler.load_users`) -/

/-- A user entry as built by `UsersSheetHandler.load_users`. -/
structure UEntry where
  password : String
  full_name : String
  role : String
  email : String
  department : String
  id : Int
deriving DecidableEq, Repr

/-- `pd.notna`. -/
def notna : Val → Bool
  | .vNan => false
  | _ => true

/-- The numeric value of a digit string, `none` when any character is
not a decimal digit. -/
def digitsVal : List Char → Option Nat
  | [] => none
  | c :: cs =>
    if (c :: cs).all Char.isDigit then
      some ((c :: cs).foldl (fun n ch => n * 10 + (ch.toNat - '0'.toNat)) 0)
    else none

/-- Python `int(s)` on a string: optional surrounding whitespace,
optional sign, decimal digits; anything else raises (`none`). -/
def pyIntOfStr (s : String) : Option Int :=
  match (pyStrip s).data with
  | '-' :: rest => (digitsVal rest).map (fun n => -(n : Int))
  | '+' :: rest => (digitsVal rest).map (fun n => (n : Int))
  | cs => (digitsVal cs).map (fun n => (n : Int))

/-- Python `int(value)` on a cell: numbers truncate toward zero, strings
parse as decimal integers, anything else raises (`none`). -/
def pyInt : Val → Option Int
  | .vNum q => some (Int.tdiv q.num (q.den : Int))
  | .vStr s => pyIntOfStr s
  | .vNan => none

/-- `str(row.get("username", "")).strip()` (main.py:340). -/
def trimmedUsername (r : Row) : String :=
  pyStrip (pyValStr (rowGetD r "username" (.vStr "")))

/-- `row.get("id", 0)` (main.py:348). -/
def idCell (r : Row) : Val := rowGetD r "id" (.vNum 0)

/-- `int(row.get("id", 0)) if pd.notna(row.get("id", 0)) else 0`;
`none` models the `int()` call raising. -/
def userIdOf (r : Row) : Option Int :=
  if notna (idCell r) then pyInt (idCell r) else some 0

/-- The entry dictionary built for one row (main.py:342-349). -/
def mkUEntry (r : Row) (username : String) (idn : Int) : UEntry :=
  { password := pyValStr (rowGetD r "password" (.vStr "")),
    full_name := pyValStr (rowGetD r "full_name" (.vStr username)),
    role := pyLower (pyValStr (rowGetD r "role" (.vStr "user"))),
    email := pyValStr (rowGetD r "email" (.vStr "")),
    department := pyValStr (rowGetD r "department" (.vStr "General")),
    id := idn }

/-- One iteration of the row loop of `UsersSheetHandler.load_users`:
rows with an empty trimmed username are skipped, otherwise the entry is
stored under the username (overwriting an earlier entry); an
unparseable `id` cell raises out of the loop (`.error`). -/
def usersStep (acc : List (String × UEntry)) (r : Row) : Except Unit (List (String × UEntry)) :=
  let u := trimmedUsername r
  if u = "" then .ok acc
  else
    match userIdOf r with
    | none => .error ()
    | some n => .ok (dictSet acc u (mkUEntry r u n))

/-- The row loop of `UsersSheetHandler.load_users` (main.py:338-351)
over the rows of the users snapshot. -/
def load_users_rows (rows : List Row) : Except Unit (List (String × UEntry)) :=
  rows.foldlM usersStep []

/-- The last row of the snapshot whose trimmed username is `u` (used to
state that later duplicate rows overwrite earlier ones). -/
def lastRowFor (rows : List Row) (u : String) : Option Row :=
  rows.foldl (fun acc r => if trimmedUsername r == u then some r else acc) none

/-- A row the user loop can process without raising: either its trimmed
username is empty (the row is skipped) or its `id` cell is computable. -/
def goodRow (r : Row) : Bool :=
  trimmedUsername r == "" || (userIdOf r).isSome

/-! ## Users and authentication (`load_users` entries, `authenticate_user`) -/

/-- A stored user entry, as produced by `load_users` (a JSON object with
a stored password string plus profile fields). -/
structure UserRec where
  password : String
  role : String
  id : Int
  email : String
  full_name : String
  department : String
deriving DecidableEq, Repr

/-- The identity dictionary `authenticate_user` returns on success. -/
structure Identity where
  username : String
  role : String
  id : Int
  email : String
  full_name : String
  department : String
deriving DecidableEq, Repr

/-- The success dictionary built by `authenticate_user` from the stored
record. -/
def mkIdentity (username : String) (u : UserRec) : Identity :=
  { username := username, role := u.role, id := u.id, email := u.email,
    full_name := u.full_name, department := u.department }

/-- `authenticate_user` (main.py:484-519).  `bcrypt.checkpw` is an
external call, modelled by the oracle `checkpw : password → stored →
Except Unit Bool` (`.error` models a raised exception).  The stored
value is a string; encoding it to bytes and decoding back is the
identity, so the fallback comparison is plain string equality.  Python
`not username` for a string argument is emptiness. -/
def authenticate_user (users : List (String × UserRec))
    (checkpw : String → String → Except Unit Bool)
    (username password : String) : Option Identity :=
  if username = "" || password = "" then none
  else
    match lookup users username with
    | none => none
    | some urec =>
      match checkpw password urec.password with
      | .ok true => some (mkIdentity username urec)
      | .ok false => none
      | .error _ =>
        if password = urec.password then some (mkIdentity username urec)
        else none

/-! ## User removal (`ManagerControlPanel`) -/

/-- The remove-employee action (main.py:1494-1498 plus `_remove_user`,
main.py:1502-1514): the removal runs only when the selected target is
truthy and differs from the acting user's own username; otherwise the
`Forbidden` warning is shown and nothing changes.  The result pairs the
outcome (`.error ()` = Forbidden) with the resulting user store. -/
def removeEmployeeAction (users : List (String × UserRec)) (acting target : String) :
    Except Unit Unit × List (String × UserRec) :=
  if target ≠ "" && target != acting then
    (.ok (), if (lookup users target).isSome then dictDel users target else users)
  else
    (.error (), users)

/-! ## Concrete oracles used by witnesses and counterexamples -/

/-- A hash-check oracle that always succeeds. -/
def ckTrue : String → String → Except Unit Bool := fun _ _ => .ok true

/-- A hash-check oracle that always raises (malformed stored hash). -/
def ckRaise : String → String → Except Unit Bool := fun _ _ => .error ()

/-- A hash-check oracle that never matches. -/
def ckFalse : String → String → Except Unit Bool := fun _ _ => .ok false

/-- A numeric-string parser that never parses. -/
def parseNever : String → Option ℚ := fun _ => none

/-- A remote fetch that always fails. -/
def fetchDown : String → Except String Frame := fun _ => .error "connection error"

/-- A remote fetch returning a fixed frame. -/
def fetchConst (f : Frame) : String → Except String Frame := fun _ => .ok f

/-- The spec's Access Control Filter example: client rows with
`assigned_to` values "Alice", "alice.smith", "Bob". -/
def exampleClients : List Row :=
  [[("name", .vStr "c1"), ("assigned_to", .vStr "Alice")],
   [("name", .vStr "c2"), ("assigned_to", .vStr "alice.smith")],
   [("name", .vStr "c3"), ("assigned_to", .vStr "Bob")]]

/-- The same example rows as a remote snapshot. -/
def exampleClientsFrame : Frame :=
  { cols := ["name", "assigned_to"], rows := exampleClients }

/-- A properties snapshot whose only column is the alias
`property_type`, with untrimmed whitespace in the header. -/
def wPropFrame : Frame :=
  { cols := [" property_type "], rows := [[(" property_type ", .vStr "Villa")]] }

/-- A sample stored user record. -/
def sampleRec : UserRec :=
  { password := "pw", role := "sales", id := 4, email := "e@x", full_name := "U", department := "Sales" }

/-! # Theorems -/

/-! ## Association-list helper lemmas -/

theorem lookup_cons {α : Type} (p : String × α) (m : List (String × α)) (k : String) :
    lookup (p :: m) k = if p.1 == k then some p.2 else lookup m k := by
  by_cases h : p.1 == k <;> simp [lookup, List.find?, h]

theorem rowGet_eq_lookup (r : Row) (k : String) : rowGet r k = lookup r k := rfl

theorem lookup_dictSet_self {α : Type} (m : List (String × α)) (k : String) (v : α) :
    lookup (dictSet m k v) k = some v := by
  induction m with
  | nil => simp [dictSet, lookup, List.find?]
  | cons p m ih =>
    by_cases h : p.1 = k
    · have hg : ((p :: m).find? (fun q => q.1 == k)).isSome = true := by
        simp [List.find?, h]
      simp [dictSet, hg, List.map, h, lookup_cons]
    · have hpk : (p.1 == k) = false := beq_eq_false_iff_ne.mpr h
      cases hm : (m.find? (fun q => q.1 == k)).isSome with
      | true =>
        have hg : ((p :: m).find? (fun q => q.1 == k)).isSome = true := by
          simp [List.find?, hpk, hm]
        have hmap : dictSet (p :: m) k v =
            (p :: m).map (fun q => if q.1 == k then (k, v) else q) := by
          simp [dictSet, hg]
        have hmap2 : dictSet m k v = m.map (fun q => if q.1 == k then (k, v) else q) := by
          simp [dictSet, hm]
        have hfp : (if p.1 == k then (k, v) else p) = p := by rw [hpk]; simp
        rw [hmap, List.map_cons, hfp, lookup_cons, hpk]
        simp only [Bool.false_eq_true, if_false]
        rw [← hmap2]
        exact ih
      | false =>
        have hg : ((p :: m).find? (fun q => q.1 == k)).isSome = false := by
          simp [List.find?, hpk, hm]
        have hmap : dictSet (p :: m) k v = p :: (m ++ [(k, v)]) := by
          simp [dictSet, hg]
        have hmap2 : dictSet m k v = m ++ [(k, v)] := by simp [dictSet, hm]
        rw [hmap, lookup_cons, hpk]
        simp only [Bool.false_eq_true, if_false]
        rw [← hmap2]
        exact ih

theorem lookup_mapset_ne {α : Type} (m : List (String × α)) (k k' : String) (v : α)
    (h : k' ≠ k) :
    lookup (m.map (fun q => if q.1 == k then (k, v) else q)) k' = lookup m k' := by
  induction m with
  | nil => simp [lookup]
  | cons q m ih =>
    cases hq : q.1 == k with
    | true =>
      have hq' : q.1 = k := by simpa using hq
      have hkk : (k == k') = false := beq_eq_false_iff_ne.mpr (Ne.symm h)
      have hfq : (if q.1 == k then (k, v) else q) = (k, v) := by rw [hq]; simp
      rw [List.map_cons, hfq, lookup_cons, lookup_cons, hq', hkk]
      simp only [Bool.false_eq_true, if_false]
      exact ih
    | false =>
      have hfq : (if q.1 == k then (k, v) else q) = q := by rw [hq]; simp
      rw [List.map_cons, hfq, lookup_cons, lookup_cons]
      cases hq' : q.1 == k' with
      | true => simp
      | false =>
        simp only [Bool.false_eq_true, if_false]
        exact ih

theorem lookup_append_single_ne {α : Type} (m : List (String × α)) (k k' : String) (v : α)
    (h : k' ≠ k) : lookup (m ++ [(k, v)]) k' = lookup m k' := by
  induction m with
  | nil => simp [lookup_cons, lookup, Ne.symm h]
  | cons p m ih => rw [List.cons_append, lookup_cons, lookup_cons, ih]

theorem lookup_dictSet_ne {α : Type} (m : List (String × α)) (k k' : String) (v : α)
    (h : k' ≠ k) : lookup (dictSet m k v) k' = lookup m k' := by
  cases hm : (m.find? (fun q => q.1 == k)).isSome with
  | true =>
    have hmap : dictSet m k v = m.map (fun q => if q.1 == k then (k, v) else q) := by
      simp [dictSet, hm]
    rw [hmap]
    exact lookup_mapset_ne m k k' v h
  | false =>
    have hmap : dictSet m k v = m ++ [(k, v)] := by simp [dictSet, hm]
    rw [hmap]
    exact lookup_append_single_ne m k k' v h

/-! ## C3: add_client -/

theorem cdLoadClients_next_id (registry : List SheetCfg) (fetch : String → Except String Frame)
    (backup : Option (List Row)) (username user_role : String) :
    (cdLoadClients registry fetch backup username user_role).next_id =
      (cdLoadClients registry fetch backup username user_role).clients.length + 1 := by
  cases h : (handlerLoadClients registry fetch username user_role).isEmpty with
  | true =>
    cases backup with
    | none => simp [cdLoadClients, loadLocalBackup, h]
    | some cl => simp [cdLoadClients, loadLocalBackup, h]
  | false => simp [cdLoadClients, h]

/-- C3: `add_client` assigns `client_id` equal to the prior unfiltered
record count plus 1 (and stores it on the record), sets
`conversion_stage` to "Lead", stamps `created_at` and `last_contact`
with the current time, and, when the acting role is `sales` and the
payload supplies no truthy `assigned_to`, sets `assigned_to` to the
acting identity. -/
theorem c3_add_client_defaults (registry : List SheetCfg) (fetch : String → Except String Frame)
    (backup : Option (List Row)) (client_data : Row) (username role now : String) :
    (cdAddClient registry fetch backup client_data username role now).1 =
      (cdLoadClients registry fetch backup "system" "owner").clients.length + 1 ∧
    rowGet (cdAddClient registry fetch backup client_data username role now).2.1 "client_id" =
      some (.vNum ((cdAddClient registry fetch backup client_data username role now).1 : ℚ)) ∧
    rowGet (cdAddClient registry fetch backup client_data username role now).2.1 "conversion_stage" =
      some (.vStr "Lead") ∧
    rowGet (cdAddClient registry fetch backup client_data username role now).2.1 "created_at" =
      some (.vStr now) ∧
    rowGet (cdAddClient registry fetch backup client_data username role now).2.1 "last_contact" =
      some (.vStr now) ∧
    (pyFalsy (rowGet client_data "assigned_to") = true → role = "sales" →
      rowGet (cdAddClient registry fetch backup client_data username role now).2.1 "assigned_to" =
        some (.vStr username)) := by
  refine ⟨?_, ?_, ?_, ?_, ?_, ?_⟩
  · exact cdLoadClients_next_id registry fetch backup "system" "owner"
  · show rowGet (dictSet _ "conversion_stage" _) "client_id" = _
    rw [rowGet_eq_lookup, lookup_dictSet_ne _ _ _ _ (by decide),
      lookup_dictSet_ne _ _ _ _ (by decide), lookup_dictSet_ne _ _ _ _ (by decide),
      lookup_dictSet_self]
    rfl
  · show rowGet (dictSet _ "conversion_stage" _) "conversion_stage" = _
    rw [rowGet_eq_lookup, lookup_dictSet_self]
  · show rowGet (dictSet _ "conversion_stage" _) "created_at" = _
    rw [rowGet_eq_lookup, lookup_dictSet_ne _ _ _ _ (by decide),
      lookup_dictSet_ne _ _ _ _ (by decide), lookup_dictSet_self]
  · show rowGet (dictSet _ "conversion_stage" _) "last_contact" = _
    rw [rowGet_eq_lookup, lookup_dictSet_ne _ _ _ _ (by decide), lookup_dictSet_self]
  · intro hfalsy hrole
    show rowGet (dictSet _ "conversion_stage" _) "assigned_to" = _
    rw [rowGet_eq_lookup, lookup_dictSet_ne _ _ _ _ (by decide),
      lookup_dictSet_ne _ _ _ _ (by decide), lookup_dictSet_ne _ _ _ _ (by decide),
      lookup_dictSet_ne _ _ _ _ (by decide)]
    have hcond : (pyFalsy (rowGet client_data "assigned_to") && role == "sales") = true := by
      simp [hfalsy, hrole]
    simp only [hcond, if_true]
    rw [lookup_dictSet_self]

/-- Witness for C3: adding "Jane Doe" with no `assigned_to` as a sales
actor `agent007` over an empty database. -/
theorem c3_add_client_defaults_witness :
    (cdAddClient [] fetchDown none [("name", .vStr "Jane Doe")] "agent007" "sales" "t0").1 = 1 ∧
    rowGet (cdAddClient [] fetchDown none [("name", .vStr "Jane Doe")] "agent007" "sales" "t0").2.1
      "conversion_stage" = some (.vStr "Lead") ∧
    rowGet (cdAddClient [] fetchDown none [("name", .vStr "Jane Doe")] "agent007" "sales" "t0").2.1
      "assigned_to" = some (.vStr "agent007") := by
  have h := c3_add_client_defaults [] fetchDown none [("name", .vStr "Jane Doe")]
    "agent007" "sales" "t0"
  refine ⟨?_, h.2.2.1, h.2.2.2.2.2 (by decide) rfl⟩
  rw [h.1]
  decide

/-! ## C4: fetch failures degrade to empty results -/

/-- C4: whenever the remote load of a dataset fails -- in particular
when the `transactions` type has no registry entry -- the transactions
handler returns the empty frame (never an exception: the functions are
total) and the count aggregate over it is 0; and when the clients fetch
fails and the local backup is absent, the client read path returns the
empty result set with `next_id` 1. -/
theorem c4_fetch_failure_yields_empty (registry : List SheetCfg)
    (fetch : String → Except String Frame) (u role : String) (e e2 : FetchErr) :
    (load_sheet_by_type registry fetch "transactions" = .error e →
      load_transactions registry fetch = emptyFrame ∧
      countRows (load_transactions registry fetch) = 0) ∧
    (getSheetByType registry "transactions" = none →
      load_sheet_by_type registry fetch "transactions" = .error .notConfigured) ∧
    (load_sheet_by_type registry fetch "clients" = .error e2 →
      cdLoadClients registry fetch none u role = ClientsData.mk [] 1 []) := by
  refine ⟨?_, ?_, ?_⟩
  · intro h
    unfold load_transactions
    rw [h]
    exact ⟨rfl, rfl⟩
  · intro h
    unfold load_sheet_by_type
    rw [h]
  · intro h
    have hcl : handlerLoadClients registry fetch u role = [] := by
      unfold handlerLoadClients
      rw [h]
    unfold cdLoadClients
    rw [hcl]
    rfl

/-- Witness for C4: an empty registry (no `transactions` entry, no
`clients` entry) with the remote down and no local backup. -/
theorem c4_fetch_failure_yields_empty_witness :
    load_transactions [] fetchDown = emptyFrame ∧
    countRows (load_transactions [] fetchDown) = 0 ∧
    cdLoadClients [] fetchDown none "u" "sales" = ClientsData.mk [] 1 [] := by
  have h := c4_fetch_failure_yields_empty [] fetchDown "u" "sales" .notConfigured .notConfigured
  have h1 := h.1 (h.2.1 rfl)
  exact ⟨h1.1, h1.2, h.2.2 rfl⟩

/-! ## C8: URL shape parsing -/

theorem headMatches_iff (lit : List Char) : ∀ s : List Char,
    headMatches lit s = true ↔ ∃ r, s = lit ++ r := by
  induction lit with
  | nil => intro s; simp [headMatches]
  | cons p ps ih =>
    intro s
    cases s with
    | nil => simp [headMatches]
    | cons c cs =>
      simp only [headMatches, Bool.and_eq_true, decide_eq_true_eq, ih,
        List.cons_append, List.cons.injEq]
      constructor
      · rintro ⟨hpc, r, hr⟩
        exact ⟨r, hpc.symm, hr⟩
      · rintro ⟨r, hcp, hr⟩
        exact ⟨hcp.symm, r, hr⟩

theorem extractTok_isSome_iff (lit : List Char) (cs : List Char) :
    (extractTok lit cs).isSome = true ↔
      ∃ pre tok post, cs = pre ++ lit ++ tok ++ post ∧ tok ≠ [] ∧ tok.all isIdentChar = true := by
  induction cs with
  | nil =>
    simp only [extractTok, Option.isSome_none, Bool.false_eq_true, false_iff]
    rintro ⟨pre, tok, post, h, hne, _⟩
    have h' := h.symm
    simp only [List.append_assoc, List.append_eq_nil] at h'
    exact hne h'.2.2.1
  | cons c cs ih =>
    have hunfold : extractTok lit (c :: cs) =
        if headMatches lit (c :: cs) &&
            !(((c :: cs).drop lit.length).takeWhile isIdentChar).isEmpty then
          some (((c :: cs).drop lit.length).takeWhile isIdentChar)
        else extractTok lit cs := by
      simp only [extractTok]
    by_cases hcond : (headMatches lit (c :: cs) &&
        !(((c :: cs).drop lit.length).takeWhile isIdentChar).isEmpty) = true
    · have hsome : (extractTok lit (c :: cs)).isSome = true := by
        rw [hunfold, if_pos hcond]
        rfl
      rw [hsome]
      simp only [true_iff]
      have hand := hcond
      rw [Bool.and_eq_true] at hand
      obtain ⟨hm, ht⟩ := hand
      obtain ⟨r, hr⟩ := (headMatches_iff lit (c :: cs)).mp hm
      have hdrop : (c :: cs).drop lit.length = r := by
        rw [hr]; exact List.drop_left lit r
      refine ⟨[], r.takeWhile isIdentChar, r.dropWhile isIdentChar, ?_, ?_, ?_⟩
      · rw [List.nil_append, hr, List.append_assoc, List.takeWhile_append_dropWhile]
      · intro hnil
        rw [hdrop, hnil] at ht
        simp at ht
      · exact List.all_takeWhile
    · have hrec : extractTok lit (c :: cs) = extractTok lit cs := by
        rw [hunfold, if_neg (by simpa using hcond)]
      rw [hrec, ih]
      constructor
      · rintro ⟨pre, tok, post, h, hne, hall⟩
        exact ⟨c :: pre, tok, post, by rw [h]; rfl, hne, hall⟩
      · rintro ⟨pre, tok, post, h, hne, hall⟩
        cases pre with
        | cons c' pre' =>
          refine ⟨pre', tok, post, ?_, hne, hall⟩
          have h2 := h
          simp only [List.cons_append, List.cons.injEq] at h2
          exact h2.2
        | nil =>
          exfalso
          apply hcond
          simp only [List.nil_append] at h
          have hm : headMatches lit (c :: cs) = true :=
            (headMatches_iff lit (c :: cs)).mpr ⟨tok ++ post, by rw [h, List.append_assoc]⟩
          have hdrop : (c :: cs).drop lit.length = tok ++ post := by
            rw [h, List.append_assoc]
            exact List.drop_left lit (tok ++ post)
          rw [Bool.and_eq_true]
          refine ⟨hm, ?_⟩
          rw [hdrop]
          cases tok with
          | nil => exact absurd rfl hne
          | cons t0 ts =>
            have ht0 : isIdentChar t0 = true := by
              have hmem := List.all_eq_true.mp hall t0 (by simp)
              simpa using hmem
            simp [List.takeWhile, ht0]

/-- C8: the sheet-id extraction accepts exactly the two URI shapes
`/spreadsheets/d/<ID>` and `id=<ID>` with `<ID>` a nonempty
alphanumeric/hyphen/underscore token (parse fails iff neither shape is
present), and when a configured, nonempty location URL matches neither
shape, `load_sheet_by_type` returns the `InvalidLocation` outcome
without attempting any fetch (the result is the same for every fetch
oracle, and no exception is possible since the function is total). -/
theorem c8_invalid_location (registry : List SheetCfg)
    (fetch1 fetch2 : String → Except String Frame) (t url : String) (cfg : SheetCfg) :
    (parseSheetId url = none ↔
      ¬ specShapePresent litSpread url ∧ ¬ specShapePresent litIdEq url) ∧
    (getSheetByType registry t = some cfg → cfg.url = url → url ≠ "" →
      parseSheetId url = none →
      load_sheet_by_type registry fetch1 t = .error .invalidLocation ∧
      load_sheet_by_type registry fetch1 t = load_sheet_by_type registry fetch2 t) := by
  constructor
  · have hnone : ∀ lit : List Char, (extractTok lit url.data = none) ↔ ¬ specShapePresent lit url := by
      intro lit
      unfold specShapePresent
      rw [← extractTok_isSome_iff lit url.data]
      cases extractTok lit url.data <;> simp
    constructor
    · intro h
      unfold parseSheetId at h
      cases h1 : extractTok litSpread url.data with
      | some tk => rw [h1] at h; exact absurd h (by simp)
      | none =>
        rw [h1] at h
        refine ⟨(hnone litSpread).mp h1, (hnone litIdEq).mp ?_⟩
        cases h2 : extractTok litIdEq url.data with
        | some tk => rw [h2] at h; exact absurd h (by simp)
        | none => rfl
    · rintro ⟨hs, hi⟩
      unfold parseSheetId
      rw [(hnone litSpread).mpr hs, (hnone litIdEq).mpr hi]
      rfl
  · intro hfind hurl hne hparse
    have hload : ∀ f : String → Except String Frame,
        load_sheet_by_type registry f t = .error .invalidLocation := by
      intro f
      simp only [load_sheet_by_type, hfind]
      rw [hurl, if_neg hne, hparse]
    exact ⟨hload fetch1, (hload fetch1).trans (hload fetch2).symm⟩

/-! ## C1: role-based client filtering -/

/-- C1 fails as stated: on the spec's own example (records assigned to
"Alice", "alice.smith", "Bob"; role `sales`, identity `alice`) the
remote path returns the first two records (case-insensitive substring
match), but the local-backup fallback path filters by exact equality
and returns no records at all -- not the same filtering rule, and not
the two records the claim requires. -/
theorem c1_counterexample :
    handlerLoadClients [SheetCfg.mk "clients" "id=abc"] (fetchConst exampleClientsFrame)
        "alice" "sales" =
      [[("name", .vStr "c1"), ("assigned_to", .vStr "Alice")],
       [("name", .vStr "c2"), ("assigned_to", .vStr "alice.smith")]] ∧
    (cdLoadClients [] fetchDown (some exampleClients) "alice" "sales").clients = [] := by
  exact ⟨by decide, by decide⟩

/-- C1 (amended): the remote path filters sales users by case-insensitive
substring match on `assigned_to` (for a nonempty identity, when the
normalized snapshot has an `assigned_to` column) and returns every
record to any other role; the local-backup fallback path instead keeps,
for sales users, exactly the records whose `assigned_to` equals the
identity, and returns every backup record to any other role. -/
theorem c1_role_filtering (registry : List SheetCfg) (fetch : String → Except String Frame)
    (df : Frame) (rows : List Row) (username role : String) (r : Row) :
    (load_sheet_by_type registry fetch "clients" = .ok df →
     username ≠ "" → role = "sales" →
     (applyMapping clientsMapping (stripCols df)).cols.contains "assigned_to" = true →
     (r ∈ handlerLoadClients registry fetch username role ↔
       r ∈ (applyMapping clientsMapping (stripCols df)).rows ∧
         containsCI (pyValStr (rowGetD r "assigned_to" .vNan)) username = true)) ∧
    (load_sheet_by_type registry fetch "clients" = .ok df → role ≠ "sales" →
      handlerLoadClients registry fetch username role =
        (applyMapping clientsMapping (stripCols df)).rows) ∧
    ((loadLocalBackup (some rows) username "sales").clients =
      rows.filter (fun c => rowGet c "assigned_to" == some (.vStr username))) ∧
    (r ∈ (loadLocalBackup (some rows) username "sales").clients ↔
      r ∈ rows ∧ rowGet r "assigned_to" = some (.vStr username)) ∧
    (role ≠ "sales" → (loadLocalBackup (some rows) username role).clients = rows) := by
  refine ⟨?_, ?_, ?_, ?_, ?_⟩
  · intro hok hu hrole hcol
    unfold handlerLoadClients
    rw [hok]
    have hguard : (username ≠ "" && role == "sales") = true := by
      simp [hu, hrole]
    simp only [hguard, if_true, hcol, List.mem_filter]
  · intro hok hrole
    have hguard : (username ≠ "" && role == "sales") = false := by
      simp [hrole]
    unfold handlerLoadClients
    rw [hok]
    simp only [hguard, Bool.false_eq_true, if_false]
  · simp [loadLocalBackup]
  · simp only [loadLocalBackup, beq_self_eq_true, if_true, List.mem_filter]
    constructor
    · rintro ⟨hr, hb⟩
      exact ⟨hr, by simpa using hb⟩
    · rintro ⟨hr, hb⟩
      exact ⟨hr, by simpa using hb⟩
  · intro hrole
    simp [loadLocalBackup, hrole]

/-- Witness for C1 (amended): the spec example through both paths. -/
theorem c1_role_filtering_witness :
    ([("name", .vStr "c1"), ("assigned_to", .vStr "Alice")] ∈
      handlerLoadClients [SheetCfg.mk "clients" "id=abc"] (fetchConst exampleClientsFrame)
        "alice" "sales" ↔
      [("name", .vStr "c1"), ("assigned_to", .vStr "Alice")] ∈
        (applyMapping clientsMapping (stripCols exampleClientsFrame)).rows ∧
      containsCI (pyValStr (rowGetD [("name", .vStr "c1"), ("assigned_to", .vStr "Alice")]
        "assigned_to" .vNan)) "alice" = true) ∧
    (loadLocalBackup (some exampleClients) "alice" "sales").clients =
      exampleClients.filter (fun c => rowGet c "assigned_to" == some (.vStr "alice")) := by
  have h := c1_role_filtering [SheetCfg.mk "clients" "id=abc"] (fetchConst exampleClientsFrame)
    exampleClientsFrame exampleClients "alice" "sales"
    [("name", .vStr "c1"), ("assigned_to", .vStr "Alice")]
  exact ⟨h.1 rfl (by decide) rfl (by decide), h.2.2.1⟩

/-! ## C6: numeric coercion and NaN-excluding aggregates -/

theorem numsOf_append_nan (vs : List Val) : numsOf (vs ++ [.vNan]) = numsOf vs := by
  simp [numsOf, List.filterMap_append]

theorem rowGet_map_guard (r : Row) (k : String) (cond : String → Bool) (t : Val → Val) :
    rowGet (r.map (fun p => if cond p.1 then (p.1, t p.2) else p)) k =
      (rowGet r k).map (fun v => if cond k then t v else v) := by
  induction r with
  | nil => rfl
  | cons p r ih =>
    have hhead : (if cond p.1 then (p.1, t p.2) else p).1 = p.1 := by
      by_cases hc : cond p.1 = true <;> simp [hc]
    cases hpk : p.1 == k with
    | true =>
      have hp' : p.1 = k := by simpa using hpk
      rw [List.map_cons, rowGet_eq_lookup, lookup_cons, hhead, hpk]
      rw [rowGet_eq_lookup, lookup_cons, hpk]
      simp only [if_true]
      by_cases hc : cond p.1 = true
      · rw [if_pos hc]
        rw [hp'] at hc
        simp [hc]
      · rw [if_neg hc]
        rw [hp'] at hc
        simp [Bool.not_eq_true] at hc
        simp [hc]
    | false =>
      rw [List.map_cons, rowGet_eq_lookup, lookup_cons, hhead, hpk]
      rw [rowGet_eq_lookup, lookup_cons, hpk]
      simp only [Bool.false_eq_true, if_false]
      exact ih

/-- C6: `to_numeric(errors="coerce")` turns parseable source values into
numbers and unparseable or missing values into NaN (never an error --
the function is total -- and never the number 0), the coercion is what
the properties load applies to each declared-numeric column, and the
sum and mean aggregates skip NaN entries entirely (appending a NaN row
changes neither the sum nor the mean, in particular the mean's
denominator) -- as used by `get_inventory_metrics`. -/
theorem c6_numeric_coercion_and_aggregates (parse : String → Option ℚ) (s : String) (q : ℚ)
    (vs : List Val) (f : Frame) :
    (parse s = none → toNumeric parse (.vStr s) = .vNan) ∧
    (parse s = some q → toNumeric parse (.vStr s) = .vNum q) ∧
    toNumeric parse .vNan = .vNan ∧
    (Val.vNan ≠ .vNum 0) ∧
    pdSum (vs ++ [.vNan]) = pdSum vs ∧
    pdMean (vs ++ [.vNan]) = pdMean vs ∧
    (f.cols.contains "price_total" = true →
      colValues (coerceNumericCols parse numericPropsCols f) "price_total" =
        (colValues f "price_total").map (toNumeric parse)) ∧
    (f.rows.isEmpty = false →
     firstPresentCol ["price_total", "price", "value"] f = some "price_total" →
     (get_inventory_metrics f).total_value = pdSum (colValues f "price_total") ∧
     (get_inventory_metrics f).avg_price = pdMean (colValues f "price_total")) := by
  refine ⟨?_, ?_, rfl, by decide, ?_, ?_, ?_, ?_⟩
  · intro h; simp [toNumeric, h]
  · intro h; simp [toNumeric, h]
  · rw [pdSum, pdSum, numsOf_append_nan]
  · rw [pdMean, pdMean, numsOf_append_nan]
  · intro hcol
    unfold colValues coerceNumericCols
    simp only [List.map_map]
    apply List.map_eq_map_iff.mpr
    intro r hr
    show rowGetD (r.map (fun p =>
        if numericPropsCols.contains p.1 && f.cols.contains p.1 then
          (p.1, toNumeric parse p.2) else p)) "price_total" .vNan =
      toNumeric parse (rowGetD r "price_total" .vNan)
    rw [rowGetD, rowGetD, rowGet_map_guard r "price_total"
      (fun c => numericPropsCols.contains c && f.cols.contains c) (toNumeric parse)]
    have hc : (numericPropsCols.contains "price_total" && f.cols.contains "price_total") = true := by
      rw [hcol]; decide
    rw [hc]
    cases rowGet r "price_total" with
    | none => simp [toNumeric]
    | some v => simp
  · intro hne hfirst
    unfold get_inventory_metrics
    rw [hne, hfirst]
    simp only [Bool.false_eq_true, if_false]
    constructor <;> first | rfl | trivial

/-- Witness for C6: an unparseable price cell plus NaN-append invariance
at concrete values. -/
theorem c6_numeric_coercion_and_aggregates_witness :
    toNumeric parseNever (.vStr "abc") = .vNan ∧
    pdSum ([Val.vNum 1] ++ [.vNan]) = pdSum [Val.vNum 1] ∧
    pdMean ([Val.vNum 1] ++ [.vNan]) = pdMean [Val.vNum 1] ∧
    colValues (coerceNumericCols parseNever numericPropsCols
        (Frame.mk ["price_total"] [[("price_total", Val.vStr "5")]])) "price_total" =
      (colValues (Frame.mk ["price_total"] [[("price_total", Val.vStr "5")]]) "price_total").map
        (toNumeric parseNever) ∧
    (get_inventory_metrics (Frame.mk ["price_total"] [[("price_total", Val.vStr "5")]])).total_value =
      pdSum (colValues (Frame.mk ["price_total"] [[("price_total", Val.vStr "5")]]) "price_total") := by
  have h := c6_numeric_coercion_and_aggregates parseNever "abc" 0 [Val.vNum 1]
    (Frame.mk ["price_total"] [[("price_total", Val.vStr "5")]])
  exact ⟨h.1 rfl, h.2.2.2.2.1, h.2.2.2.2.2.1, h.2.2.2.2.2.2.1 (by decide),
    (h.2.2.2.2.2.2.2 (by decide) (by decide)).1⟩

/-- Witness for C8: a configured URL matching neither shape yields
`InvalidLocation` independently of the fetch oracle. -/
theorem c8_invalid_location_witness :
    load_sheet_by_type [SheetCfg.mk "clients" "http://nope"] fetchDown "clients" =
      .error .invalidLocation ∧
    load_sheet_by_type [SheetCfg.mk "clients" "http://nope"] fetchDown "clients" =
      load_sheet_by_type [SheetCfg.mk "clients" "http://nope"] (fetchConst emptyFrame) "clients" := by
  have h := c8_invalid_location [SheetCfg.mk "clients" "http://nope"] fetchDown
    (fetchConst emptyFrame) "clients" "http://nope" (SheetCfg.mk "clients" "http://nope")
  exact h.2 rfl rfl (by decide) (by decide)

/-- C9: with an empty (or missing) username or an empty (or missing)
password, `authenticate_user` returns `none`, and the result does not
depend on the user store at all — so no account can ever be matched by
an empty password, even if its stored password value is empty. -/
theorem c9_empty_credentials_rejected
    (users users2 : List (String × UserRec))
    (checkpw : String → String → Except Unit Bool) (username password : String)
    (h : username = "" ∨ password = "") :
    authenticate_user users checkpw username password = none ∧
    authenticate_user users2 checkpw username password =
      authenticate_user users checkpw username password := by
  rcases h with h | h <;> simp [authenticate_user, h]

/-- Witness for C9: a store whose only account has an empty stored
password still rejects the empty password. -/
theorem c9_empty_credentials_rejected_witness :
    authenticate_user [("u", { sampleRec with password := "" })] ckTrue "u" "" = none ∧
    authenticate_user [] ckTrue "u" "" =
      authenticate_user [("u", { sampleRec with password := "" })] ckTrue "u" "" :=
  c9_empty_credentials_rejected _ [] ckTrue "u" "" (Or.inr rfl)

/-- C2 fails as stated: with username `"u"` present in the store and a
hash check that succeeds on the empty password, the claim's right-hand
side holds, yet `authenticate_user` returns `none` because of its
empty-credentials guard. -/
theorem c2_counterexample :
    lookup [("u", sampleRec)] "u" = some sampleRec ∧
    ckTrue "" sampleRec.password = .ok true ∧
    authenticate_user [("u", sampleRec)] ckTrue "u" "" = none :=
  ⟨rfl, rfl, rfl⟩

/-- C2 (amended): for a nonempty username and a nonempty password,
`authenticate_user` returns the user's identity iff the username is in
the store and either the hash check succeeds, or the hash check raises
and the password equals the stored value by plain comparison; in every
other case it returns `none`. -/
theorem c2_authenticate_characterization
    (users : List (String × UserRec)) (checkpw : String → String → Except Unit Bool)
    (username password : String) (i : Identity)
    (hu : username ≠ "") (hp : password ≠ "") :
    authenticate_user users checkpw username password = some i ↔
      ∃ urec, lookup users username = some urec ∧ i = mkIdentity username urec ∧
        (checkpw password urec.password = .ok true ∨
         (checkpw password urec.password = .error () ∧ password = urec.password)) := by
  cases hL : lookup users username with
  | none => simp [authenticate_user, hu, hp, hL]
  | some urec =>
    cases hC : checkpw password urec.password with
    | ok b =>
      cases b
      · simp [authenticate_user, hu, hp, hL, hC, eq_comm]
      · simp [authenticate_user, hu, hp, hL, hC, eq_comm]
    | error e =>
      cases e
      by_cases hpw : password = urec.password
      · subst hpw
        simp [authenticate_user, hu, hp, hL, hC, eq_comm]
      · simp [authenticate_user, hu, hp, hL, hC, hpw, eq_comm]

/-- Witness for C2: a legacy entry whose hash check raises is matched by
plaintext equality. -/
theorem c2_authenticate_characterization_witness :
    authenticate_user [("u", sampleRec)] ckRaise "u" "pw" = some (mkIdentity "u" sampleRec) :=
  (c2_authenticate_characterization [("u", sampleRec)] ckRaise "u" "pw"
      (mkIdentity "u" sampleRec) (by decide) (by decide)).mpr
    ⟨sampleRec, rfl, rfl, Or.inr ⟨rfl, rfl⟩⟩

/-! ## C5: schema normalizer -/

theorem renameKey_self (c : String) (r : Row) : renameKey c c r = r := by
  unfold renameKey
  induction r with
  | nil => rfl
  | cons p r ih =>
    have hp : (if p.1 == c then (c, p.2) else p) = p := by
      by_cases h : p.1 = c
      · cases p with
        | mk p1 p2 => simp only at h; rw [h]; simp
      · simp [h]
    rw [List.map_cons, hp, ih]

theorem renameCol_self (c : String) (f : Frame) : renameCol c c f = f := by
  cases f with
  | mk cols rows =>
    unfold renameCol
    simp only [Frame.mk.injEq]
    constructor
    · induction cols with
      | nil => rfl
      | cons x l ih =>
        have hx : (if x == c then c else x) = x := by
          by_cases h : x = c
          · rw [h]; simp
          · simp [h]
        rw [List.map_cons, hx, ih]
    · induction rows with
      | nil => rfl
      | cons r rows ih =>
        rw [List.map_cons, renameKey_self, ih]

theorem applyFieldStep_of_canon_mem (f : Frame) (canon : String) (aliases : List String)
    (h : f.cols.contains canon = true) : applyFieldStep f canon aliases = f := by
  induction aliases with
  | nil => rfl
  | cons a as ih =>
    show List.foldl _
      (if f.cols.contains a && !(f.cols.contains canon) then renameCol a canon f else f) as = f
    rw [h]
    simp only [Bool.not_true, Bool.and_false, Bool.false_eq_true, if_false]
    exact ih

theorem contains_rename_new (l : List String) (old nw : String) (h : l.contains old = true) :
    (l.map (fun c => if c == old then nw else c)).contains nw = true :=
  List.elem_iff.mpr (List.mem_map.mpr ⟨old, List.elem_iff.mp h, by simp⟩)

theorem contains_rename_other (l : List String) (old nw k : String)
    (h1 : k ≠ old) (h2 : k ≠ nw) :
    (l.map (fun c => if c == old then nw else c)).contains k = l.contains k := by
  rw [Bool.eq_iff_iff]
  constructor
  · intro hmem
    obtain ⟨c, hc, hck⟩ := List.mem_map.mp (List.elem_iff.mp hmem)
    by_cases hco : c = old
    · rw [hco] at hck
      simp only [beq_self_eq_true, if_true] at hck
      exact absurd hck.symm h2
    · rw [if_neg (by simpa using hco)] at hck
      exact List.elem_iff.mpr (hck ▸ hc)
  · intro hmem
    refine List.elem_iff.mpr (List.mem_map.mpr ⟨k, List.elem_iff.mp hmem, ?_⟩)
    simp [h1]

theorem rowGet_renameKey_other (r : Row) (old nw k : String) (h1 : k ≠ old) (h2 : k ≠ nw) :
    rowGet (renameKey old nw r) k = rowGet r k := by
  unfold renameKey
  induction r with
  | nil => rfl
  | cons p r ih =>
    rw [List.map_cons]
    by_cases hp : p.1 = old
    · have hhead : (if p.1 == old then (nw, p.2) else p) = (nw, p.2) := by
        rw [if_pos (by simpa using hp)]
      rw [hhead, rowGet_eq_lookup, lookup_cons, rowGet_eq_lookup, lookup_cons]
      have hnk : ((nw, p.2).1 == k) = false := beq_eq_false_iff_ne.mpr (Ne.symm h2)
      have hpk : (p.1 == k) = false := by
        rw [hp]
        exact beq_eq_false_iff_ne.mpr (Ne.symm h1)
      rw [hnk, hpk]
      simp only [Bool.false_eq_true, if_false]
      exact ih
    · have hhead : (if p.1 == old then (nw, p.2) else p) = p := by
        rw [if_neg (by simpa using hp)]
      rw [hhead, rowGet_eq_lookup, lookup_cons, rowGet_eq_lookup, lookup_cons]
      cases hpk : p.1 == k with
      | true => rfl
      | false =>
        simp only [Bool.false_eq_true, if_false]
        exact ih

theorem rowGet_renameKey_target (r : Row) (old nw : String) (hnone : rowGet r nw = none) :
    rowGet (renameKey old nw r) nw = rowGet r old := by
  unfold renameKey
  induction r with
  | nil => rfl
  | cons p r ih =>
    rw [rowGet_eq_lookup, lookup_cons] at hnone
    have hpnw : (p.1 == nw) = false := by
      cases hx : p.1 == nw with
      | true => rw [hx] at hnone; simp at hnone
      | false => rfl
    rw [hpnw] at hnone
    simp only [Bool.false_eq_true, if_false] at hnone
    rw [List.map_cons]
    by_cases hp : p.1 = old
    · have hhead : (if p.1 == old then (nw, p.2) else p) = (nw, p.2) := by
        rw [if_pos (by simpa using hp)]
      rw [hhead, rowGet_eq_lookup, lookup_cons, rowGet_eq_lookup, lookup_cons]
      have hnn : ((nw, p.2).1 == nw) = true := by simp
      have hpo : (p.1 == old) = true := by simpa using hp
      rw [hnn, hpo]
      rfl
    · have hhead : (if p.1 == old then (nw, p.2) else p) = p := by
        rw [if_neg (by simpa using hp)]
      have hpo : (p.1 == old) = false := beq_eq_false_iff_ne.mpr hp
      rw [hhead, rowGet_eq_lookup, lookup_cons, rowGet_eq_lookup, lookup_cons, hpnw, hpo]
      simp only [Bool.false_eq_true, if_false]
      exact ih hnone

theorem applyFieldStep_eq_find (f : Frame) (canon : String) (aliases : List String)
    (hc : f.cols.contains canon = false) :
    applyFieldStep f canon aliases =
      match aliases.find? (fun a => f.cols.contains a) with
      | none => f
      | some a => renameCol a canon f := by
  induction aliases with
  | nil => rfl
  | cons a as ih =>
    show List.foldl _
      (if f.cols.contains a && !(f.cols.contains canon) then renameCol a canon f else f) as = _
    rw [hc]
    cases ha : f.cols.contains a with
    | true =>
      simp only [Bool.not_false, Bool.and_true, if_true]
      have hfind : (a :: as).find? (fun x => f.cols.contains x) = some a := by
        simp only [List.find?_cons, ha]
      rw [hfind]
      have hnew : (renameCol a canon f).cols.contains canon = true :=
        contains_rename_new f.cols a canon ha
      exact applyFieldStep_of_canon_mem (renameCol a canon f) canon as hnew
    | false =>
      simp only [Bool.not_false, Bool.false_and, Bool.false_eq_true, if_false]
      have hfind : (a :: as).find? (fun x => f.cols.contains x) =
          as.find? (fun x => f.cols.contains x) := by
        simp only [List.find?_cons, ha]
      rw [hfind]
      exact ih

theorem applyFieldStep_eq_spec (f : Frame) (canon : String) (rest : List String) :
    applyFieldStep f canon (canon :: rest) = specFieldStep f canon (canon :: rest) := by
  cases hc : f.cols.contains canon with
  | true =>
    rw [applyFieldStep_of_canon_mem f canon _ hc]
    unfold specFieldStep
    have hfind : (canon :: rest).find? (fun a => f.cols.contains a) = some canon := by
      simp only [List.find?_cons, hc]
    rw [hfind]
    exact (renameCol_self canon f).symm
  | false =>
    rw [applyFieldStep_eq_find f canon _ hc]
    rfl

theorem applyMapping_eq_spec (t : AliasTable)
    (ht : ∀ fld ∈ t, fld.2.head? = some fld.1) :
    ∀ f : Frame, applyMapping t f = specApplyMapping t f := by
  induction t with
  | nil => intro f; rfl
  | cons fld t ih =>
    intro f
    have hh := ht fld (by simp)
    show applyMapping t (applyFieldStep f fld.1 fld.2) =
      specApplyMapping t (specFieldStep f fld.1 fld.2)
    have hstep : applyFieldStep f fld.1 fld.2 = specFieldStep f fld.1 fld.2 := by
      cases h2 : fld.2 with
      | nil => rw [h2] at hh; simp at hh
      | cons a as =>
        rw [h2] at hh
        simp only [List.head?_cons, Option.some.injEq] at hh
        rw [hh]
        exact applyFieldStep_eq_spec f fld.1 as
    rw [hstep]
    exact ih (fun g hg => ht g (by simp [hg])) _

theorem specFieldStep_cols_other (g : Frame) (canon : String) (aliases : List String) (k : String)
    (h1 : k ≠ canon) (h2 : ∀ a ∈ aliases, k ≠ a) :
    (specFieldStep g canon aliases).cols.contains k = g.cols.contains k := by
  unfold specFieldStep
  cases hfind : aliases.find? (fun a => g.cols.contains a) with
  | none => rfl
  | some a =>
    exact contains_rename_other g.cols a canon k (h2 a (List.mem_of_find?_eq_some hfind)) h1

theorem specFieldStep_rows (g : Frame) (canon : String) (aliases : List String) :
    ∃ φ : Row → Row, (specFieldStep g canon aliases).rows = g.rows.map φ ∧
      (∀ r k, k ≠ canon → (∀ a ∈ aliases, k ≠ a) → rowGet (φ r) k = rowGet r k) ∧
      (∀ a0, aliases.find? (fun a => g.cols.contains a) = some a0 →
        ∀ r, rowGet r canon = none → rowGet (φ r) canon = rowGet r a0) := by
  unfold specFieldStep
  cases hfind : aliases.find? (fun a => g.cols.contains a) with
  | none =>
    refine ⟨id, by simp, fun r k _ _ => rfl, ?_⟩
    intro a0 h
    exact absurd h (by simp)
  | some a =>
    refine ⟨renameKey a canon, rfl, ?_, ?_⟩
    · intro r k hk1 hk2
      exact rowGet_renameKey_other r a canon k (hk2 a (List.mem_of_find?_eq_some hfind)) hk1
    · intro a0 h r hr
      injection h with h
      rw [← h]
      exact rowGet_renameKey_target r a canon hr

theorem specApplyMapping_cons (c : String) (al : List String) (t : AliasTable) (f : Frame) :
    specApplyMapping ((c, al) :: t) f = specApplyMapping t (specFieldStep f c al) := rfl

theorem specApplyMapping_rowGet_preserved (t : AliasTable) (k : String)
    (hk : ∀ fld ∈ t, k ≠ fld.1 ∧ ∀ a ∈ fld.2, k ≠ a) :
    ∀ (g : Frame) (i : Nat) (r : Row), g.rows[i]? = some r →
      ∃ r', (specApplyMapping t g).rows[i]? = some r' ∧ rowGet r' k = rowGet r k := by
  induction t with
  | nil => intro g i r h; exact ⟨r, h, rfl⟩
  | cons fld t ih =>
    intro g i r h
    obtain ⟨φ, hrows, hother, _⟩ := specFieldStep_rows g fld.1 fld.2
    have hstep : (specFieldStep g fld.1 fld.2).rows[i]? = some (φ r) := by
      rw [hrows, List.getElem?_map, h]
      rfl
    obtain ⟨hk1, hk2⟩ := hk fld (by simp)
    obtain ⟨r', hr', hval⟩ :=
      ih (fun g' hg => hk g' (by simp [hg])) (specFieldStep g fld.1 fld.2) i (φ r) hstep
    exact ⟨r', hr', by rw [hval, hother r k hk1 hk2]⟩

set_option maxHeartbeats 1000000 in
/-- C5: the handler normalization (trim headers, then the alias-mapping
loop) is exactly the spec's rule -- for each canonical field, the first
alias present among the trimmed columns is renamed onto the canonical
name -- for both the properties table and the clients table; and a
snapshot whose columns carry the alias `property_type` (and no
`unit_type`) yields records whose canonical `unit_type` field is
populated with the value the row stored under `property_type`. -/
theorem c5_normalizer_first_alias (f : Frame) (i : Nat) (r : Row) :
    applyMapping propertiesMapping (stripCols f) =
      specApplyMapping propertiesMapping (stripCols f) ∧
    applyMapping clientsMapping (stripCols f) = specApplyMapping clientsMapping (stripCols f) ∧
    ((stripCols f).cols.contains "unit_type" = false →
     (stripCols f).cols.contains "property_type" = true →
     (stripCols f).rows[i]? = some r →
     rowGet r "unit_type" = none →
     ∃ r', (applyMapping propertiesMapping (stripCols f)).rows[i]? = some r' ∧
       rowGet r' "unit_type" = rowGet r "property_type") := by
  refine ⟨applyMapping_eq_spec propertiesMapping (by decide) (stripCols f),
    applyMapping_eq_spec clientsMapping (by decide) (stripCols f), ?_⟩
  intro hut hpt hi hr
  rw [applyMapping_eq_spec propertiesMapping (by decide) (stripCols f)]
  obtain ⟨φ1, hrows1, hother1, _⟩ :=
    specFieldStep_rows (stripCols f) "unit_id" ["unit_id", "id", "property_id"]
  have hi1 : (specFieldStep (stripCols f) "unit_id" ["unit_id", "id", "property_id"]).rows[i]? =
      some (φ1 r) := by
    rw [hrows1, List.getElem?_map, hi]
    rfl
  have hr1ut : rowGet (φ1 r) "unit_type" = none := by
    rw [hother1 r "unit_type" (by decide) (by decide)]
    exact hr
  have hr1pt : rowGet (φ1 r) "property_type" = rowGet r "property_type" :=
    hother1 r "property_type" (by decide) (by decide)
  have hcols1ut :
      (specFieldStep (stripCols f) "unit_id" ["unit_id", "id", "property_id"]).cols.contains
        "unit_type" = false := by
    rw [specFieldStep_cols_other (stripCols f) "unit_id" _ "unit_type" (by decide) (by decide)]
    exact hut
  have hcols1pt :
      (specFieldStep (stripCols f) "unit_id" ["unit_id", "id", "property_id"]).cols.contains
        "property_type" = true := by
    rw [specFieldStep_cols_other (stripCols f) "unit_id" _ "property_type" (by decide) (by decide)]
    exact hpt
  obtain ⟨φ2, hrows2, hother2, htarget2⟩ :=
    specFieldStep_rows (specFieldStep (stripCols f) "unit_id" ["unit_id", "id", "property_id"])
      "unit_type" ["unit_type", "property_type", "type"]
  have hfind2 : (["unit_type", "property_type", "type"].find? (fun a =>
      (specFieldStep (stripCols f) "unit_id" ["unit_id", "id", "property_id"]).cols.contains a)) =
      some "property_type" := by
    simp only [List.find?_cons, hcols1ut, hcols1pt]
  have hi2 : (specFieldStep
      (specFieldStep (stripCols f) "unit_id" ["unit_id", "id", "property_id"])
      "unit_type" ["unit_type", "property_type", "type"]).rows[i]? = some (φ2 (φ1 r)) := by
    rw [hrows2, List.getElem?_map, hi1]
    rfl
  have hval2 : rowGet (φ2 (φ1 r)) "unit_type" = rowGet (φ1 r) "property_type" :=
    htarget2 "property_type" hfind2 (φ1 r) hr1ut
  obtain ⟨r', hr', hval'⟩ := specApplyMapping_rowGet_preserved
    [("listing_type", ["listing_type", "sale_rent", "transaction_type"]),
     ("area", ["area", "region", "location", "city"]),
     ("address", ["address", "main_address", "street_address"]),
     ("price_total", ["price_total", "price", "total_price", "value"]),
     ("area_sqm", ["area_sqm", "area_m2", "size", "square_meters"]),
     ("rooms", ["rooms", "bedrooms", "number_of_rooms"]),
     ("bathrooms", ["bathrooms", "washrooms", "number_of_bathrooms"]),
     ("floor_number", ["floor_number", "floor", "level"]),
     ("status", ["status", "unit_status", "availability"])]
    "unit_type" (by decide)
    (specFieldStep (specFieldStep (stripCols f) "unit_id" ["unit_id", "id", "property_id"])
      "unit_type" ["unit_type", "property_type", "type"]) i (φ2 (φ1 r)) hi2
  have hexp : specApplyMapping propertiesMapping (stripCols f) =
      specApplyMapping
        [("listing_type", ["listing_type", "sale_rent", "transaction_type"]),
         ("area", ["area", "region", "location", "city"]),
         ("address", ["address", "main_address", "street_address"]),
         ("price_total", ["price_total", "price", "total_price", "value"]),
         ("area_sqm", ["area_sqm", "area_m2", "size", "square_meters"]),
         ("rooms", ["rooms", "bedrooms", "number_of_rooms"]),
         ("bathrooms", ["bathrooms", "washrooms", "number_of_bathrooms"]),
         ("floor_number", ["floor_number", "floor", "level"]),
         ("status", ["status", "unit_status", "availability"])]
        (specFieldStep (specFieldStep (stripCols f) "unit_id" ["unit_id", "id", "property_id"])
          "unit_type" ["unit_type", "property_type", "type"]) := by
    rw [show propertiesMapping =
        ("unit_id", ["unit_id", "id", "property_id"]) ::
        ("unit_type", ["unit_type", "property_type", "type"]) ::
        [("listing_type", ["listing_type", "sale_rent", "transaction_type"]),
         ("area", ["area", "region", "location", "city"]),
         ("address", ["address", "main_address", "street_address"]),
         ("price_total", ["price_total", "price", "total_price", "value"]),
         ("area_sqm", ["area_sqm", "area_m2", "size", "square_meters"]),
         ("rooms", ["rooms", "bedrooms", "number_of_rooms"]),
         ("bathrooms", ["bathrooms", "washrooms", "number_of_bathrooms"]),
         ("floor_number", ["floor_number", "floor", "level"]),
         ("status", ["status", "unit_status", "availability"])] from rfl]
    rw [specApplyMapping_cons, specApplyMapping_cons]
  refine ⟨r', ?_, ?_⟩
  · rw [hexp]
    exact hr'
  · rw [hval', hval2, hr1pt]

/-- Witness for C5: a one-column snapshot using the alias
`property_type` with an untrimmed header is normalized to a record whose
`unit_type` field carries the source value. -/
theorem c5_normalizer_first_alias_witness :
    ∃ r', (applyMapping propertiesMapping (stripCols wPropFrame)).rows[0]? = some r' ∧
      rowGet r' "unit_type" =
        rowGet [("property_type", Val.vStr "Villa")] "property_type" := by
  have h := c5_normalizer_first_alias wPropFrame 0 [("property_type", Val.vStr "Villa")]
  exact h.2.2 (by decide) (by decide) (by decide) (by decide)

/-! ## C10: user loading -/

theorem lastRowFor_foldl (u : String) : ∀ (rows : List Row) (init : Option Row),
    rows.foldl (fun acc r => if trimmedUsername r == u then some r else acc) init =
      match lastRowFor rows u with
      | some r => some r
      | none => init := by
  intro rows
  induction rows with
  | nil => intro init; rfl
  | cons r rows ih =>
    intro init
    show rows.foldl _ (if trimmedUsername r == u then some r else init) = _
    rw [ih]
    have hlast : lastRowFor (r :: rows) u =
        match lastRowFor rows u with
        | some r' => some r'
        | none => (if trimmedUsername r == u then some r else none) := by
      show rows.foldl _ (if trimmedUsername r == u then some r else none) = _
      rw [ih]
    rw [hlast]
    cases lastRowFor rows u with
    | some r' => rfl
    | none =>
      cases htr : trimmedUsername r == u with
      | true => simp [htr]
      | false => simp [htr]

theorem lastRowFor_cons (u : String) (r : Row) (rows : List Row) :
    lastRowFor (r :: rows) u =
      match lastRowFor rows u with
      | some r' => some r'
      | none => (if trimmedUsername r == u then some r else none) := by
  show rows.foldl _ (if trimmedUsername r == u then some r else none) = _
  rw [lastRowFor_foldl]

theorem lastRowFor_isSome_iff (u : String) (rows : List Row) :
    (lastRowFor rows u).isSome = true ↔ ∃ r ∈ rows, trimmedUsername r = u := by
  induction rows with
  | nil => simp [lastRowFor]
  | cons r rows ih =>
    rw [lastRowFor_cons]
    cases hLR : lastRowFor rows u with
    | some r' =>
      simp only [Option.isSome_some, true_iff]
      obtain ⟨r'', hmem, htrim⟩ := ih.mp (by rw [hLR]; rfl)
      exact ⟨r'', by simp [hmem], htrim⟩
    | none =>
      cases htr : trimmedUsername r == u with
      | true =>
        simp only [if_true, Option.isSome_some, true_iff]
        exact ⟨r, by simp, by simpa using htr⟩
      | false =>
        simp only [Bool.false_eq_true, if_false, Option.isSome_none, false_iff]
        rintro ⟨r'', hmem, htrim⟩
        rcases List.mem_cons.mp hmem with hrr | hrest
        · rw [hrr] at htrim
          rw [htrim] at htr
          simp at htr
        · have : (lastRowFor rows u).isSome = true := ih.mpr ⟨r'', hrest, htrim⟩
          rw [hLR] at this
          simp at this

theorem load_users_go (u : String) (hu : u ≠ "") : ∀ (rows : List Row)
    (acc : List (String × UEntry)), (∀ r ∈ rows, goodRow r = true) →
    ∃ m, List.foldlM usersStep acc rows = .ok m ∧
      lookup m u =
        (match lastRowFor rows u with
         | some r => some (mkUEntry r u ((userIdOf r).getD 0))
         | none => lookup acc u) ∧
      lookup m "" = lookup acc "" := by
  intro rows
  induction rows with
  | nil => intro acc _; exact ⟨acc, rfl, rfl, rfl⟩
  | cons r rows ih =>
    intro acc hall
    have hr := hall r (by simp)
    have hrest : ∀ r' ∈ rows, goodRow r' = true := fun r' h' => hall r' (by simp [h'])
    by_cases hemp : trimmedUsername r = ""
    · have hstep : usersStep acc r = .ok acc := by simp [usersStep, hemp]
      obtain ⟨m, hm, hlk, hlk0⟩ := ih acc hrest
      have hfold : List.foldlM usersStep acc (r :: rows) = .ok m := by
        show (usersStep acc r >>= fun a => List.foldlM usersStep a rows) = .ok m
        rw [hstep]
        exact hm
      refine ⟨m, hfold, ?_, hlk0⟩
      rw [hlk, lastRowFor_cons]
      have htr : (trimmedUsername r == u) = false := by
        rw [hemp]
        exact beq_eq_false_iff_ne.mpr (Ne.symm hu)
      rw [htr]
      cases lastRowFor rows u <;> rfl
    · have hid : (userIdOf r).isSome = true := by
        have hg := hr
        rw [goodRow, Bool.or_eq_true] at hg
        rcases hg with hg | hg
        · exact absurd (by simpa using hg) hemp
        · exact hg
      obtain ⟨n, hn⟩ := Option.isSome_iff_exists.mp hid
      have hstep : usersStep acc r =
          .ok (dictSet acc (trimmedUsername r) (mkUEntry r (trimmedUsername r) n)) := by
        simp [usersStep, hemp, hn]
      obtain ⟨m, hm, hlk, hlk0⟩ :=
        ih (dictSet acc (trimmedUsername r) (mkUEntry r (trimmedUsername r) n)) hrest
      have hfold : List.foldlM usersStep acc (r :: rows) = .ok m := by
        show (usersStep acc r >>= fun a => List.foldlM usersStep a rows) = .ok m
        rw [hstep]
        exact hm
      refine ⟨m, hfold, ?_, ?_⟩
      · rw [hlk, lastRowFor_cons]
        cases hLR : lastRowFor rows u with
        | some r' => rfl
        | none =>
          cases htr : trimmedUsername r == u with
          | true =>
            have htr' : trimmedUsername r = u := by simpa using htr
            rw [htr', lookup_dictSet_self]
            simp [hn]
          | false =>
            have hne2 : u ≠ trimmedUsername r := by
              intro he
              rw [he] at htr
              simp at htr
            rw [lookup_dictSet_ne _ _ _ _ hne2]
            simp
      · rw [hlk0, lookup_dictSet_ne _ _ _ _ (Ne.symm hemp)]

/-- C10 fails as stated: a row whose `id` cell is the non-numeric string
"abc" makes `int(row.get("id", 0))` raise, so the user loop raises
instead of returning the one-entry mapping the claim requires. -/
theorem c10_counterexample :
    load_users_rows [[("username", .vStr "u"), ("id", .vStr "abc")]] = .error () := by
  rfl

/-- C10 (amended): for every users snapshot whose rows all either have
an empty trimmed username or a computable `id` cell, the user loop
returns a mapping with exactly one entry per distinct nonempty trimmed
username: looking up a nonempty username yields the entry built from
the last row carrying it (later rows overwrite earlier ones), a
username occurs iff some row carries it, rows with empty trimmed
usernames are omitted, and the empty username is never a key. -/
theorem c10_load_users_mapping (rows : List Row) (u : String)
    (hgood : ∀ r ∈ rows, goodRow r = true) (hu : u ≠ "") :
    ∃ m, load_users_rows rows = .ok m ∧
      lookup m u = (lastRowFor rows u).map (fun r => mkUEntry r u ((userIdOf r).getD 0)) ∧
      ((lookup m u).isSome ↔ ∃ r ∈ rows, trimmedUsername r = u) ∧
      lookup m "" = none := by
  obtain ⟨m, hm, hlk, hlk0⟩ := load_users_go u hu rows [] hgood
  refine ⟨m, hm, ?_, ?_, hlk0⟩
  · rw [hlk]
    cases lastRowFor rows u <;> rfl
  · rw [hlk, ← lastRowFor_isSome_iff]
    cases lastRowFor rows u <;> simp [lookup]

/-- Witness for C10 (amended): two rows sharing username "bob" (the
later one wins) plus a skipped empty-username row. -/
theorem c10_load_users_mapping_witness :
    ∃ m, load_users_rows
        [[("username", .vStr "bob"), ("id", .vNum 1)],
         [("username", .vStr " ")],
         [("username", .vStr "bob "), ("id", .vNum 2)]] = .ok m ∧
      lookup m "bob" =
        (lastRowFor
          [[("username", .vStr "bob"), ("id", .vNum 1)],
           [("username", .vStr " ")],
           [("username", .vStr "bob "), ("id", .vNum 2)]] "bob").map
          (fun r => mkUEntry r "bob" ((userIdOf r).getD 0)) ∧
      ((lookup m "bob").isSome ↔ ∃ r ∈
          [[("username", .vStr "bob"), ("id", .vNum 1)],
           [("username", .vStr " ")],
           [("username", .vStr "bob "), ("id", .vNum 2)]], trimmedUsername r = "bob") ∧
      lookup m "" = none :=
  c10_load_users_mapping
    [[("username", .vStr "bob"), ("id", .vNum 1)],
     [("username", .vStr " ")],
     [("username", .vStr "bob "), ("id", .vNum 2)]] "bob" (by decide) (by decide)

/-- C7: attempting to remove the acting user's own username is refused
with the Forbidden outcome and the user store is left unchanged. -/
theorem c7_remove_self_forbidden (users : List (String × UserRec)) (acting : String) :
    removeEmployeeAction users acting acting = (.error (), users) := by
  simp [removeEmployeeAction]

end Helpiss
